import Mathlib

/-!
Shallow embedding of the expense_tracker persistence layer.

Sources embedded:
* `app/models/expense.py` — the validated request/response records. The
  `amount` field is a Python `Decimal` constrained to `max_digits=10,
  decimal_places=2`, i.e. an exact fixed-point number with two fractional
  digits; it is embedded as an integer number of cents (`Int`), which is
  lossless for exactly that set of values.
* `app/crud/expenses.py` — the Expense Store. A connection is a `Conn`
  state: committed rows, the id sequence, the server clock
  (`CURRENT_TIMESTAMP`), and a log of transaction events. Every operation
  takes a `fail` flag meaning "the SQL statement raised `psycopg2.Error`";
  dates and timestamps are abstract integers.
* `app/services/expenses.py` — the Expense Service wrapping each Store call.
* `expenses/models.py` (`Category.save`) and
  `expenses/management/commands/create_default_categories.py` — the Django
  category model with its per-user custom-category quota and the idempotent
  default seeding command.
-/

/-- Embeds `ExpenseCreate` (`app/models/expense.py`): amount in cents,
category string, optional description, date as an abstract day number. -/
structure ExpenseCreate where
  amount : Int
  category : String
  description : Option String
  date : Int
deriving Repr, DecidableEq

/-- Embeds `ExpenseUpdate`: each field `none` means "not supplied". -/
structure ExpenseUpdate where
  amount : Option Int
  category : Option String
  description : Option String
  date : Option Int
deriving Repr, DecidableEq

/-- A stored row of the `expenses` table, in column order
`(id, amount, category, description, date, created_at, updated_at)`. -/
structure ExpenseRow where
  id : Nat
  amount : Int
  category : String
  description : Option String
  date : Int
  created_at : Int
  updated_at : Int
deriving Repr, DecidableEq

/-- Embeds `ExpenseResponse` (same columns the CRUD layer reads back). -/
structure ExpenseResponse where
  id : Nat
  amount : Int
  category : String
  description : Option String
  date : Int
  created_at : Int
  updated_at : Int
deriving Repr, DecidableEq

/-- Building an `ExpenseResponse` from a fetched row
(`ExpenseResponse(id=row[0], amount=row[1], ...)`). -/
def toResponse (r : ExpenseRow) : ExpenseResponse :=
  ⟨r.id, r.amount, r.category, r.description, r.date, r.created_at, r.updated_at⟩

/-- Embeds `psycopg2.Error`, the one storage-failure kind the CRUD layer handles. -/
inductive StorageError
  | storageError
deriving Repr, DecidableEq

/-- A transaction event issued on the connection (`conn.commit()` /
`conn.rollback()`). -/
inductive TxEvent
  | commit
  | rollback
deriving Repr, DecidableEq

/-- The connection plus database state: committed rows, the id sequence
value, the server clock, and the history of commits/rollbacks. -/
structure Conn where
  db : List ExpenseRow
  nextId : Nat
  now : Int
  log : List TxEvent
deriving Repr, DecidableEq

/-- Models `conn.commit()` making the transaction's rows the committed state. -/
def Conn.doCommit (c : Conn) (newDb : List ExpenseRow) (newNextId : Nat) : Conn :=
  { c with db := newDb, nextId := newNextId, log := c.log ++ [TxEvent.commit] }

/-- Models `conn.rollback()`: pending statements are discarded, committed rows
stay as they were. -/
def Conn.rollback (c : Conn) : Conn :=
  { c with log := c.log ++ [TxEvent.rollback] }

/-- Row ids handed out by the sequence so far are below `nextId`, which
holds for every state reachable from an empty database. -/
def Conn.WellFormed (c : Conn) : Prop :=
  ∀ r ∈ c.db, r.id < c.nextId

/-- Embeds `create_expense` (`app/crud/expenses.py`): INSERT .. RETURNING *, then
commit; on `psycopg2.Error` roll back and re-raise. -/
def create_expense (expense : ExpenseCreate) (c : Conn) (fail : Bool) :
    Except StorageError ExpenseResponse × Conn :=
  if fail then
    (Except.error StorageError.storageError, c.rollback)
  else
    let row : ExpenseRow :=
      ⟨c.nextId, expense.amount, expense.category, expense.description,
        expense.date, c.now, c.now⟩
    (Except.ok (toResponse row), c.doCommit (c.db ++ [row]) (c.nextId + 1))

/-- Embeds `get_expense_by_id`: SELECT by id; `None` row becomes `none`; a
`psycopg2.Error` is re-raised without touching the transaction. -/
def get_expense_by_id (expense_id : Nat) (c : Conn) (fail : Bool) :
    Except StorageError (Option ExpenseResponse) × Conn :=
  if fail then
    (Except.error StorageError.storageError, c)
  else
    (Except.ok ((c.db.find? (fun r => r.id == expense_id)).map toResponse), c)

/-- The ORDER BY date DESC relation used by `get_all_expenses`. -/
def dateDesc (a b : ExpenseRow) : Prop := b.date ≤ a.date

instance : DecidableRel dateDesc := fun a b => inferInstanceAs (Decidable (b.date ≤ a.date))

instance : IsTotal ExpenseRow dateDesc :=
  ⟨fun a b => (le_total b.date a.date).elim Or.inl Or.inr⟩

instance : IsTrans ExpenseRow dateDesc :=
  ⟨fun _ _ _ hab hbc => le_trans hbc hab⟩

/-- Embeds `get_all_expenses`: SELECT * ORDER BY date DESC, all rows fetched and
converted; a `psycopg2.Error` re-raised as-is. -/
def get_all_expenses (c : Conn) (fail : Bool) :
    Except StorageError (List ExpenseResponse) × Conn :=
  if fail then
    (Except.error StorageError.storageError, c)
  else
    (Except.ok ((List.insertionSort dateDesc c.db).map toResponse), c)

/-- The dynamic SET clause of `update_expense`: one setter per supplied
field, appended in source order (amount, category, description, date). -/
def buildUpdateFields (expense : ExpenseUpdate) : List (ExpenseRow → ExpenseRow) :=
  (match expense.amount with
    | some a => [fun r => { r with amount := a }]
    | none => []) ++
  (match expense.category with
    | some v => [fun r => { r with category := v }]
    | none => []) ++
  (match expense.description with
    | some v => [fun r => { r with description := some v }]
    | none => []) ++
  (match expense.date with
    | some v => [fun r => { r with date := v }]
    | none => [])

/-- Applying the SET clause to a row, including the unconditional
`updated_at = CURRENT_TIMESTAMP` the code appends. -/
def applyUpdate (fs : List (ExpenseRow → ExpenseRow)) (now : Int) (r : ExpenseRow) : ExpenseRow :=
  { fs.foldl (fun r f => f r) r with updated_at := now }

/-- Embeds `update_expense`: with no supplied fields it returns
`get_expense_by_id` (inside the same try block, so a failing SELECT is
rolled back); otherwise UPDATE .. RETURNING *, commit only when a row
matched, roll back and re-raise on `psycopg2.Error`. -/
def update_expense (expense_id : Nat) (expense : ExpenseUpdate) (c : Conn) (fail : Bool) :
    Except StorageError (Option ExpenseResponse) × Conn :=
  let update_fields := buildUpdateFields expense
  if update_fields.isEmpty then
    match get_expense_by_id expense_id c fail with
    | (Except.ok v, _) => (Except.ok v, c)
    | (Except.error e, _) => (Except.error e, c.rollback)
  else if fail then
    (Except.error StorageError.storageError, c.rollback)
  else
    match c.db.find? (fun r => r.id == expense_id) with
    | none => (Except.ok none, c)
    | some row =>
      let newDb := c.db.map
        (fun r => if r.id == expense_id then applyUpdate update_fields c.now r else r)
      (Except.ok (some (toResponse (applyUpdate update_fields c.now row))),
        c.doCommit newDb c.nextId)

/-- Embeds `delete_expense`: DELETE .. RETURNING *; no fetched row means `False`
with no commit; a fetched row means commit and `True`; on
`psycopg2.Error` roll back and re-raise. -/
def delete_expense (id : Nat) (c : Conn) (fail : Bool) :
    Except StorageError Bool × Conn :=
  if fail then
    (Except.error StorageError.storageError, c.rollback)
  else
    match c.db.find? (fun r => r.id == id) with
    | none => (Except.ok false, c)
    | some _ =>
      (Except.ok true, c.doCommit (c.db.filter (fun r => !(r.id == id))) c.nextId)

/-- The two exception classes of `app/services/expenses.py`. -/
inductive ServiceError
  | databaseError
  | expenseNotFoundError
deriving Repr, DecidableEq

/-- Embeds `ExpenseService.create`: wrap `psycopg2.Error` as `DatabaseError`. -/
def ExpenseService.create (expense : ExpenseCreate) (c : Conn) (fail : Bool) :
    Except ServiceError ExpenseResponse × Conn :=
  match create_expense expense c fail with
  | (Except.ok r, c') => (Except.ok r, c')
  | (Except.error _, c') => (Except.error ServiceError.databaseError, c')

/-- Embeds `ExpenseService.get_all`. -/
def ExpenseService.get_all (c : Conn) (fail : Bool) :
    Except ServiceError (List ExpenseResponse) × Conn :=
  match get_all_expenses c fail with
  | (Except.ok rs, c') => (Except.ok rs, c')
  | (Except.error _, c') => (Except.error ServiceError.databaseError, c')

/-- Embeds `ExpenseService.get_by_id`: the code raises `ExpenseNotFoundError`
when the Store read returns `None` (that raise happens inside the try
block but is not a `psycopg2.Error`, so it propagates unchanged). -/
def ExpenseService.get_by_id (expense_id : Nat) (c : Conn) (fail : Bool) :
    Except ServiceError ExpenseResponse × Conn :=
  match get_expense_by_id expense_id c fail with
  | (Except.ok none, c') => (Except.error ServiceError.expenseNotFoundError, c')
  | (Except.ok (some r), c') => (Except.ok r, c')
  | (Except.error _, c') => (Except.error ServiceError.databaseError, c')

/-- Embeds `ExpenseService.update`. -/
def ExpenseService.update (expense_id : Nat) (expense : ExpenseUpdate) (c : Conn) (fail : Bool) :
    Except ServiceError ExpenseResponse × Conn :=
  match update_expense expense_id expense c fail with
  | (Except.ok none, c') => (Except.error ServiceError.expenseNotFoundError, c')
  | (Except.ok (some r), c') => (Except.ok r, c')
  | (Except.error _, c') => (Except.error ServiceError.databaseError, c')

/-- Embeds `ExpenseService.delete`. -/
def ExpenseService.delete (expense_id : Nat) (c : Conn) (fail : Bool) :
    Except ServiceError Unit × Conn :=
  match delete_expense expense_id c fail with
  | (Except.ok true, c') => (Except.ok Unit.unit, c')
  | (Except.ok false, c') => (Except.error ServiceError.expenseNotFoundError, c')
  | (Except.error _, c') => (Except.error ServiceError.databaseError, c')

/-- A pydantic-valid amount: `Field(gt=0, max_digits=10, decimal_places=2)`
in cents, so strictly positive and below 10^10 cents. -/
def validAmount (cents : Int) : Prop := 0 < cents ∧ cents < 10 ^ 10

/-- A row of the Django `Category` model (`expenses/models.py`): `pk` is
`none` before the first save; `user` and `parent` are nullable foreign
keys embedded as numeric ids. -/
structure Category where
  pk : Option Nat
  name : String
  description : String
  parent : Option Nat
  is_active : Bool
  is_custom : Bool
  user : Option Nat
deriving Repr, DecidableEq

/-- The categories table plus the primary-key sequence. -/
structure CatDB where
  cats : List Category
  nextPk : Nat
deriving Repr, DecidableEq

/-- The exceptions of the category layer: the `ValueError` raised by
`Category.save` at the custom-category quota (the spec's
`QuotaExceededError`), the `IntegrityError` of the storage-layer
`unique_together = ['name', 'user']` constraint (the spec's
`DuplicateNameError`), and the `MultipleObjectsReturned` raised by
`Category.objects.get(name=...)` when several rows bear the name. -/
inductive SaveError
  | quotaExceeded
  | integrityError
  | multipleObjectsReturned
deriving Repr, DecidableEq

/-- Models `super().save()`: insert with a fresh pk when the record is new,
otherwise overwrite the row with that pk. Either way the statement runs
against the `unique_together = ['name', 'user']` constraint declared in
`Category.Meta`: a second row with the same (name, user) pair raises
`IntegrityError` and writes nothing. -/
def modelSave (self : Category) (db : CatDB) :
    Except SaveError Category × CatDB :=
  match self.pk with
  | none =>
    if db.cats.any (fun c => c.name == self.name && c.user == self.user) then
      (Except.error SaveError.integrityError, db)
    else
      let saved := { self with pk := some db.nextPk }
      (Except.ok saved, ⟨db.cats ++ [saved], db.nextPk + 1⟩)
  | some k =>
    if db.cats.any
        (fun c => c.pk != some k && c.name == self.name && c.user == self.user) then
      (Except.error SaveError.integrityError, db)
    else
      (Except.ok self,
        ⟨db.cats.map (fun c => if c.pk == some k then self else c), db.nextPk⟩)

/-- Counts `Category.objects.filter(user=self.user, is_custom=True)`. -/
def customCount (db : CatDB) (u : Option Nat) : Nat :=
  (db.cats.filter (fun c => c.user == u && c.is_custom)).length

/-- Embeds `Category.save`: for a custom category with an owner, count the
owner's custom categories; for a new record at quota (>= 30) raise
without writing; otherwise fall through to `super().save()`. -/
def Category.save (self : Category) (db : CatDB) :
    Except SaveError Category × CatDB :=
  if self.is_custom && self.user.isSome then
    let custom_count := customCount db self.user
    if self.pk.isNone then
      if custom_count ≥ 30 then
        (Except.error SaveError.quotaExceeded, db)
      else
        modelSave self db
    else
      modelSave self db
  else
    modelSave self db

/-- Counts the rows bearing a name (the result size of
`Category.objects.get(name=name)`'s underlying query). -/
def countName (cats : List Category) (s : String) : Nat :=
  (cats.filter (fun c => c.name == s)).length

/-- Embeds `Category.objects.get_or_create(name=name, defaults=...)`: the
lookup is `get(name=name)`, which raises `MultipleObjectsReturned` when
several rows bear the name, returns the single match when there is one,
and on no match creates a category with the defaults and the model's
field defaults (blank description, no parent, active, no owner)
through `Category.save`. Returns the category and the created flag.
(Django would retry the get if that create hit an `IntegrityError`; with
no concurrent writer the name was just seen to be absent, so the create
cannot, and an error from it is simply propagated.) -/
def get_or_create (name : String) (db : CatDB) :
    Except SaveError (Category × Bool) × CatDB :=
  match db.cats.filter (fun c => c.name == name) with
  | [] =>
    let newCat : Category := ⟨none, name, "", none, true, false, none⟩
    match Category.save newCat db with
    | (Except.ok saved, db') => (Except.ok (saved, true), db')
    | (Except.error e, db') => (Except.error e, db')
  | [c] => (Except.ok (c, false), db)
  | _ :: _ :: _ => (Except.error SaveError.multipleObjectsReturned, db)

/-- The loop body of `Command.handle`
(`create_default_categories.py`), generalized over the name list:
`get_or_create` each name in order, counting the created ones. -/
def handleNames : List String → CatDB → Nat → Except SaveError (CatDB × Nat)
  | [], db, cnt => Except.ok (db, cnt)
  | name :: rest, db, cnt =>
    match get_or_create name db with
    | (Except.ok r, db') => handleNames rest db' (if r.2 then cnt + 1 else cnt)
    | (Except.error e, _) => Except.error e

/-- The fixed list of default parent categories seeded by the command. -/
def default_category_names : List String :=
  ["Transport", "Food & Dining", "Housing", "Entertainment",
   "Health & Fitness", "Shopping", "Education", "Travel",
   "Insurance", "Investments", "Subscriptions", "Gifts & Donations",
   "Business", "Pets", "Miscellaneous"]

/-- Embeds `Command.handle`: seed the default names, returning the final table
and the created count. -/
def Command.handle (db : CatDB) : Except SaveError (CatDB × Nat) :=
  handleNames default_category_names db 0

/-! Concrete states used to exercise the definitions. -/

/-- A connection over an empty expenses table. -/
def conn0 : Conn := ⟨[], 1, 0, []⟩

/-- A connection holding one expense row with id 1. -/
def connW : Conn := ⟨[⟨1, 5000, "Food", none, 10, 0, 0⟩], 2, 5, []⟩

/-- A connection holding two rows with out-of-order dates. -/
def connS : Conn :=
  ⟨[⟨1, 100, "a", none, 5, 0, 0⟩, ⟨2, 200, "b", none, 9, 0, 0⟩], 3, 0, []⟩

/-- A creation payload for 100.50 (10050 cents). -/
def expC : ExpenseCreate := ⟨10050, "Food", none, 10⟩

/-- The row `expC` produces when created on `conn0`. -/
def respC : ExpenseResponse := ⟨1, 10050, "Food", none, 10, 0, 0⟩

/-- A fresh custom category owned by user 7. -/
def catNew : Category := ⟨none, "Coffee", "", none, true, true, some 7⟩

/-- An empty category table. -/
def catDbEmpty : CatDB := ⟨[], 1⟩

/-- A table where user 7 already owns 30 custom categories. -/
def catDbFull : CatDB :=
  ⟨List.replicate 30 ⟨some 0, "x", "", none, true, true, some 7⟩, 31⟩

/-- A table where user 7 is far below quota but already owns a custom
category named "Coffee" — the same (name, user) pair as `catNew`. -/
def catDbDup : CatDB := ⟨[⟨some 1, "Coffee", "", none, true, true, some 7⟩], 2⟩

/-- A table whose only row is a custom, user-owned category named
"Transport" — one of the names the seeding command creates. -/
def catDb0 : CatDB := ⟨[⟨some 1, "Transport", "", none, true, true, some 7⟩], 2⟩

/-! Theorems. -/

/-- C1: a partial update whose four optional fields are all unset returns
exactly what `get_expense_by_id` returns, writes nothing (rows and
`updated_at` untouched, no commit issued), and on a successful read is
extensionally the same operation as `get_expense_by_id`. -/
theorem claim_C1_zero_field_update (expense_id : Nat) (e : ExpenseUpdate) (c : Conn)
    (fail : Bool) (h1 : e.amount = none) (h2 : e.category = none)
    (h3 : e.description = none) (h4 : e.date = none) :
    (update_expense expense_id e c fail).1 = (get_expense_by_id expense_id c fail).1 ∧
    (update_expense expense_id e c fail).2.db = c.db ∧
    (update_expense expense_id e c fail).2.log.count TxEvent.commit
      = c.log.count TxEvent.commit ∧
    (fail = false → update_expense expense_id e c fail = get_expense_by_id expense_id c fail) := by
  have hempty : buildUpdateFields e = [] := by
    simp [buildUpdateFields, h1, h2, h3, h4]
  cases fail with
  | false =>
    refine ⟨?_, ?_, ?_, ?_⟩ <;>
      simp [update_expense, hempty, get_expense_by_id]
  | true =>
    refine ⟨?_, ?_, ?_, ?_⟩ <;>
      simp [update_expense, hempty, get_expense_by_id, Conn.rollback]

/-- Witness for C1 at a concrete row. -/
theorem claim_C1_zero_field_update_witness :
    (update_expense 1 ⟨none, none, none, none⟩ connW false).1
      = (get_expense_by_id 1 connW false).1 ∧
    (update_expense 1 ⟨none, none, none, none⟩ connW false).2.db = connW.db ∧
    (update_expense 1 ⟨none, none, none, none⟩ connW false).2.log.count TxEvent.commit
      = connW.log.count TxEvent.commit ∧
    (false = false →
      update_expense 1 ⟨none, none, none, none⟩ connW false
        = get_expense_by_id 1 connW false) :=
  claim_C1_zero_field_update 1 ⟨none, none, none, none⟩ connW false rfl rfl rfl rfl

/-- C2: at the failing input (read of id 999 on an empty table) the Store
reports an explicit absent result, but the Service turns it into
`ExpenseNotFoundError` instead of passing it through — contradicting the
service's own unit test, which asserts the result is `None`. -/
theorem claim_C2_absent_read_behavior :
    (get_expense_by_id 999 conn0 false).1 = Except.ok none ∧
    ExpenseService.get_by_id 999 conn0 false
      = (Except.error ServiceError.expenseNotFoundError, conn0) :=
  ⟨rfl, rfl⟩

/-- C4: with a storage failure injected, each write operation of the Store
(create, update, delete) rolls back the transaction and re-raises the
storage error; the committed rows are untouched and the only transaction
event issued is a rollback (never a commit). -/
theorem claim_C4_write_failure_rollback (e : ExpenseCreate) (eu : ExpenseUpdate)
    (i j : Nat) (c : Conn) :
    create_expense e c true = (Except.error StorageError.storageError, c.rollback) ∧
    update_expense i eu c true = (Except.error StorageError.storageError, c.rollback) ∧
    delete_expense j c true = (Except.error StorageError.storageError, c.rollback) ∧
    c.rollback.db = c.db ∧
    c.rollback.log = c.log ++ [TxEvent.rollback] := by
  refine ⟨rfl, ?_, rfl, rfl, rfl⟩
  cases hb : (buildUpdateFields eu).isEmpty <;>
    simp [update_expense, hb, get_expense_by_id]

/-- C5: when the underlying Store call raises a storage error, every
Expense Service operation (create, get_all, get_by_id, update, delete)
raises `DatabaseError`; no raw storage error escapes the Service. -/
theorem claim_C5_service_wraps_storage_errors (e : ExpenseCreate) (eu : ExpenseUpdate)
    (i1 i2 i3 : Nat) (c : Conn) :
    (ExpenseService.create e c true).1 = Except.error ServiceError.databaseError ∧
    (ExpenseService.get_all c true).1 = Except.error ServiceError.databaseError ∧
    (ExpenseService.get_by_id i1 c true).1 = Except.error ServiceError.databaseError ∧
    (ExpenseService.update i2 eu c true).1 = Except.error ServiceError.databaseError ∧
    (ExpenseService.delete i3 c true).1 = Except.error ServiceError.databaseError := by
  refine ⟨rfl, rfl, rfl, ?_, rfl⟩
  cases hb : (buildUpdateFields eu).isEmpty <;>
    simp [ExpenseService.update, update_expense, hb, get_expense_by_id]

/-- Counterexample for C3 as stated: user 7 is far below the quota (one
custom category), yet saving a new custom "Coffee" — a (name, user) pair
the owner already holds — raises `IntegrityError` from the
`unique_together` constraint and inserts nothing, so "if the count is
below 30, the new custom category is inserted and committed" fails. -/
theorem claim_C3_counterexample :
    catNew.pk = none ∧ catNew.is_custom = true ∧ catNew.user = some 7 ∧
    customCount catDbDup catNew.user < 30 ∧
    Category.save catNew catDbDup = (Except.error SaveError.integrityError, catDbDup) :=
  ⟨rfl, rfl, rfl, by decide, rfl⟩

/-- C3 (amended): saving a new custom category for an owner fails with the
quota error and writes nothing when the owner already has at least 30
custom categories; below the quota it inserts the category with a fresh
pk provided no stored category already bears the same (name, user) pair,
and otherwise fails with the uniqueness error (`IntegrityError`, the
spec's `DuplicateNameError`) writing nothing. -/
theorem claim_C3_custom_quota (cat : Category) (db : CatDB) (u : Nat)
    (hnew : cat.pk = none) (hc : cat.is_custom = true) (hu : cat.user = some u) :
    (30 ≤ customCount db cat.user →
      Category.save cat db = (Except.error SaveError.quotaExceeded, db)) ∧
    (customCount db cat.user < 30 →
      (∀ c ∈ db.cats, ¬(c.name = cat.name ∧ c.user = cat.user)) →
      Category.save cat db =
        (Except.ok { cat with pk := some db.nextPk },
          ⟨db.cats ++ [{ cat with pk := some db.nextPk }], db.nextPk + 1⟩)) ∧
    (customCount db cat.user < 30 →
      (∃ c ∈ db.cats, c.name = cat.name ∧ c.user = cat.user) →
      Category.save cat db = (Except.error SaveError.integrityError, db)) := by
  refine ⟨?_, ?_, ?_⟩
  · intro hq
    rw [hu] at hq
    simp [Category.save, hc, hu, hnew, hq]
  · intro hq hnd
    rw [hu] at hq hnd
    have hany : db.cats.any (fun c => c.name == cat.name && c.user == some u) = false := by
      rw [List.any_eq_false]
      intro c hcmem
      simpa using hnd c hcmem
    simp [Category.save, hc, hu, hnew, Nat.not_le.mpr hq, modelSave, hany]
  · intro hq hex
    rw [hu] at hq hex
    obtain ⟨c, hcmem, hcn, hcu⟩ := hex
    have hany : db.cats.any (fun c => c.name == cat.name && c.user == some u) = true := by
      rw [List.any_eq_true]
      exact ⟨c, hcmem, by simp [hcn, hcu]⟩
    simp [Category.save, hc, hu, hnew, Nat.not_le.mpr hq, modelSave, hany]

/-- Witness for C3: the quota branch on a table with 30 custom categories
of user 7, the insert branch on an empty table, and the duplicate-name
branch on a table already holding user 7's "Coffee". -/
theorem claim_C3_custom_quota_witness :
    Category.save catNew catDbFull = (Except.error SaveError.quotaExceeded, catDbFull) ∧
    Category.save catNew catDbEmpty =
      (Except.ok { catNew with pk := some catDbEmpty.nextPk },
        ⟨catDbEmpty.cats ++ [{ catNew with pk := some catDbEmpty.nextPk }],
          catDbEmpty.nextPk + 1⟩) ∧
    Category.save catNew catDbDup = (Except.error SaveError.integrityError, catDbDup) :=
  ⟨(claim_C3_custom_quota catNew catDbFull 7 rfl rfl rfl).1 (by decide),
   (claim_C3_custom_quota catNew catDbEmpty 7 rfl rfl rfl).2.1 (by decide)
     (by intro c hcmem; simp [catDbEmpty] at hcmem),
   (claim_C3_custom_quota catNew catDbDup 7 rfl rfl rfl).2.2 (by decide)
     ⟨⟨some 1, "Coffee", "", none, true, true, some 7⟩, by decide, by decide, by decide⟩⟩

/-- C10: `Category.save` raises the quota error exactly when the record is
new (no pk), marked custom, has an owner, and that owner already has at
least 30 custom categories; updates and ownerless customs are never
checked. -/
theorem claim_C10_quota_check_condition (cat : Category) (db : CatDB) :
    (Category.save cat db).1 = Except.error SaveError.quotaExceeded ↔
      (cat.pk = none ∧ cat.is_custom = true ∧ cat.user.isSome = true ∧
        30 ≤ customCount db cat.user) := by
  cases hpk : cat.pk <;> cases hc : cat.is_custom <;> cases hu : cat.user <;>
    simp_all [Category.save, modelSave] <;> split_ifs <;> simp_all

/-- Lemma: `find?` skips a prefix on which the predicate is everywhere false. -/
theorem find?_append_left_none {α : Type} (p : α → Bool) (l₁ l₂ : List α)
    (h : ∀ x ∈ l₁, p x = false) : (l₁ ++ l₂).find? p = l₂.find? p := by
  induction l₁ with
  | nil => rfl
  | cons a l ih =>
    have ha : p a = false := h a (List.mem_cons_self a l)
    rw [List.cons_append, List.find?_cons_of_neg _ (by simp [ha]),
      ih (fun x hx => h x (List.mem_cons_of_mem a hx))]

/-- C6: on a successful statement, `delete_expense` returns true exactly
when a row with the identifier exists; in the true case it commits and the
surviving rows are precisely the stored rows with a different id; in the
false case the connection is untouched (no commit); with a storage
failure injected it rolls back (rows unchanged) and re-raises. -/
theorem claim_C6_delete_semantics (id : Nat) (c : Conn) :
    ((delete_expense id c false).1 = Except.ok true ↔ ∃ r ∈ c.db, r.id = id) ∧
    ((delete_expense id c false).1 = Except.ok true →
      (delete_expense id c false).2.log = c.log ++ [TxEvent.commit] ∧
      (∀ r ∈ (delete_expense id c false).2.db, r ∈ c.db ∧ r.id ≠ id) ∧
      (∀ r ∈ c.db, r.id ≠ id → r ∈ (delete_expense id c false).2.db)) ∧
    ((delete_expense id c false).1 = Except.ok false →
      (delete_expense id c false).2 = c) ∧
    delete_expense id c true = (Except.error StorageError.storageError, c.rollback) ∧
    c.rollback.db = c.db ∧
    c.rollback.log = c.log ++ [TxEvent.rollback] := by
  refine ⟨?_, ?_, ?_, rfl, rfl, rfl⟩
  · cases hf : c.db.find? (fun r => r.id == id) with
    | none =>
      have hno : ∀ r ∈ c.db, r.id ≠ id := by
        intro r hr
        have := List.find?_eq_none.mp hf r hr
        simpa using this
      simp [delete_expense, hf]
      intro r hr hid
      exact hno r hr hid
    | some r =>
      have hmem : r ∈ c.db := List.mem_of_find?_eq_some hf
      have hid : r.id = id := by simpa using List.find?_some hf
      simp [delete_expense, hf]
      exact ⟨r, hmem, hid⟩
  · cases hf : c.db.find? (fun r => r.id == id) with
    | none => simp [delete_expense, hf]
    | some r =>
      simp [delete_expense, hf, Conn.doCommit, List.mem_filter]
      exact fun x hx hne => ⟨hx, by simpa using hne⟩
  · cases hf : c.db.find? (fun r => r.id == id) with
    | none => simp [delete_expense, hf]
    | some r => simp [delete_expense, hf, Conn.doCommit]

/-- Witness for C6: deleting the existing row with id 1 returns true and
commits. -/
theorem claim_C6_delete_semantics_witness :
    (delete_expense 1 connW false).1 = Except.ok true ∧
    (delete_expense 1 connW false).2.log = connW.log ++ [TxEvent.commit] := by
  have h := claim_C6_delete_semantics 1 connW
  have ht : (delete_expense 1 connW false).1 = Except.ok true :=
    h.1.mpr ⟨⟨1, 5000, "Food", none, 10, 0, 0⟩, by decide, rfl⟩
  exact ⟨ht, (h.2.1 ht).1⟩

/-- C7: on a successful statement `get_all_expenses` leaves the connection
untouched and returns all stored rows sorted by date descending (a
permutation of the table with pairwise non-increasing dates); an empty
table yields the empty list, not an error. -/
theorem claim_C7_get_all_sorted (c : Conn) :
    (get_all_expenses c false).2 = c ∧
    ∀ l, (get_all_expenses c false).1 = Except.ok l →
      List.Sorted (fun a b : ExpenseResponse => b.date ≤ a.date) l ∧
      l.Perm (c.db.map toResponse) ∧
      (c.db = [] → l = []) := by
  refine ⟨rfl, fun l hl => ?_⟩
  have hl' : l = (List.insertionSort dateDesc c.db).map toResponse := by
    have hh : Except.ok ((List.insertionSort dateDesc c.db).map toResponse)
        = (Except.ok l : Except StorageError (List ExpenseResponse)) := hl
    exact (Except.ok.inj hh).symm
  subst hl'
  refine ⟨?_, ?_, ?_⟩
  · exact List.Pairwise.map toResponse (fun a b h => h)
      (List.sorted_insertionSort dateDesc c.db)
  · exact List.Perm.map toResponse (List.perm_insertionSort dateDesc c.db)
  · intro h
    rw [h]
    rfl

/-- Witness for C7 on a two-row table with out-of-order dates. -/
theorem claim_C7_get_all_sorted_witness :
    List.Sorted (fun a b : ExpenseResponse => b.date ≤ a.date)
      ((List.insertionSort dateDesc connS.db).map toResponse) ∧
    ((List.insertionSort dateDesc connS.db).map toResponse).Perm
      (connS.db.map toResponse) := by
  have h := (claim_C7_get_all_sorted connS).2
    ((List.insertionSort dateDesc connS.db).map toResponse) rfl
  exact ⟨h.1, h.2.1⟩

/-- C8: creating a valid expense on a well-formed connection and reading
it back by the returned id yields exactly the stored record, amount
included — the fixed-point (cents) representation makes the round trip
lossless. -/
theorem claim_C8_amount_roundtrip (e : ExpenseCreate) (c : Conn)
    (hwf : c.WellFormed) (hv : validAmount e.amount) :
    ∀ resp c', create_expense e c false = (Except.ok resp, c') →
      (get_expense_by_id resp.id c' false).1 = Except.ok (some resp) ∧
      resp.amount = e.amount := by
  intro resp c' h
  have h1 : Except.ok (toResponse
        ⟨c.nextId, e.amount, e.category, e.description, e.date, c.now, c.now⟩)
      = (Except.ok resp : Except StorageError ExpenseResponse) :=
    congrArg Prod.fst h
  have hres := Except.ok.inj h1
  have h2 : c.doCommit
        (c.db ++ [⟨c.nextId, e.amount, e.category, e.description, e.date, c.now, c.now⟩])
        (c.nextId + 1) = c' :=
    congrArg Prod.snd h
  subst hres
  subst h2
  have hpred : ∀ x ∈ c.db, (x.id == c.nextId) = false := by
    intro x hx
    simpa [beq_eq_false_iff_ne] using Nat.ne_of_lt (hwf x hx)
  constructor
  · simp only [get_expense_by_id, Conn.doCommit, toResponse]
    rw [find?_append_left_none _ _ _ hpred]
    simp [List.find?, toResponse]
  · rfl

/-- Witness for C8: 100.50 (10050 cents) round-trips on an empty table. -/
theorem claim_C8_amount_roundtrip_witness :
    (get_expense_by_id respC.id (create_expense expC conn0 false).2 false).1
      = Except.ok (some respC) ∧ respC.amount = expC.amount :=
  claim_C8_amount_roundtrip expC conn0
    (by intro r hr; simp [conn0] at hr)
    (by norm_num [validAmount, expC])
    respC (create_expense expC conn0 false).2 rfl

/-- Lemma: appending rows adds the bearer counts. -/
theorem countName_append (l₁ l₂ : List Category) (s : String) :
    countName (l₁ ++ l₂) s = countName l₁ s + countName l₂ s := by
  simp [countName, List.filter_append]

/-- Lemma: `get_or_create` with exactly one row bearing the name returns
it and writes nothing. -/
theorem get_or_create_found (name : String) (db : CatDB) (c : Category)
    (h : db.cats.filter (fun x => x.name == name) = [c]) :
    get_or_create name db = (Except.ok (c, false), db) := by
  simp [get_or_create, h]

/-- Lemma: `get_or_create` on an absent name inserts a non-custom, unowned
category with the model defaults and a fresh pk (the uniqueness check of
the insert cannot fire, since no row bears the name at all). -/
theorem get_or_create_not_found (name : String) (db : CatDB)
    (h : db.cats.filter (fun x => x.name == name) = []) :
    get_or_create name db =
      (Except.ok (⟨some db.nextPk, name, "", none, true, false, none⟩, true),
        ⟨db.cats ++ [⟨some db.nextPk, name, "", none, true, false, none⟩],
          db.nextPk + 1⟩) := by
  have hnodup : db.cats.any (fun c => c.name == name && c.user == (none : Option Nat))
      = false := by
    rw [List.any_eq_false]
    intro c hcmem
    have hc' := List.filter_eq_nil_iff.mp h c hcmem
    simp only [Bool.not_eq_true] at hc'
    simp [hc']
  simp [get_or_create, h, Category.save, modelSave, hnodup]

/-- Every run of `handleNames` over names that each have at most one
bearer succeeds; already-stored rows survive untouched, every processed
name has exactly one bearer afterwards, a name with no pre-existing
bearer gets a fresh non-custom unowned one, and every name's bearer
count either stays what it was or goes from zero to one. -/
theorem handleNames_spec (names : List String) :
    ∀ (db : CatDB) (cnt : Nat),
    (∀ name ∈ names, countName db.cats name ≤ 1) →
    ∃ db' cnt', handleNames names db cnt = Except.ok (db', cnt') ∧
      (∀ c ∈ db.cats, c ∈ db'.cats) ∧
      (∀ name ∈ names, countName db'.cats name = 1) ∧
      (∀ name ∈ names, (∀ c ∈ db.cats, c.name ≠ name) →
        ∃ c ∈ db'.cats, c.name = name ∧ c.is_custom = false ∧ c.user = none) ∧
      (∀ s, countName db'.cats s = countName db.cats s ∨
        (countName db.cats s = 0 ∧ countName db'.cats s = 1)) := by
  induction names with
  | nil =>
    intro db cnt _
    exact ⟨db, cnt, rfl, fun c hc => hc, by simp, by simp, fun s => Or.inl rfl⟩
  | cons name rest ih =>
    intro db cnt h
    have hhead : countName db.cats name ≤ 1 := h name (List.mem_cons_self name rest)
    have hrest0 : ∀ nm ∈ rest, countName db.cats nm ≤ 1 :=
      fun nm hnm => h nm (List.mem_cons_of_mem _ hnm)
    cases hf : db.cats.filter (fun x => x.name == name) with
    | cons c tl =>
      cases tl with
      | cons c2 tl2 =>
        have h2 : countName db.cats name = tl2.length + 2 := by
          simp [countName, hf]
        exact absurd hhead (by omega)
      | nil =>
        obtain ⟨db', cnt', heq, hpres, hone, hnewp, hevol⟩ := ih db cnt hrest0
        have hcfil : c ∈ db.cats.filter (fun x => x.name == name) := by
          rw [hf]
          exact List.mem_singleton.mpr rfl
        have hcmem : c ∈ db.cats := (List.mem_filter.mp hcfil).1
        have hcname : c.name = name := by simpa using (List.mem_filter.mp hcfil).2
        have hc1 : countName db.cats name = 1 := by simp [countName, hf]
        refine ⟨db', cnt', ?_, hpres, ?_, ?_, hevol⟩
        · rw [handleNames, get_or_create_found name db c hf]
          exact heq
        · intro nm hnm
          rcases List.mem_cons.mp hnm with hnm | hnm
          · subst hnm
            rcases hevol nm with he | he
            · rw [he]
              exact hc1
            · exact he.2
          · exact hone nm hnm
        · intro nm hnm habs
          rcases List.mem_cons.mp hnm with hnm | hnm
          · exact absurd (by rw [hnm]; exact hcname) (habs c hcmem)
          · exact hnewp nm hnm habs
    | nil =>
      have h0 : countName db.cats name = 0 := by simp [countName, hf]
      have hsingle : ∀ s,
          countName [(⟨some db.nextPk, name, "", none, true, false, none⟩ : Category)] s
            = if name = s then 1 else 0 := by
        intro s
        by_cases hs : name = s <;> simp [countName, hs]
      have hrest1 : ∀ nm ∈ rest,
          countName (db.cats ++ [⟨some db.nextPk, name, "", none, true, false, none⟩]) nm
            ≤ 1 := by
        intro nm hnm
        rw [countName_append, hsingle nm]
        by_cases hn : name = nm
        · subst hn
          simp [h0]
        · simpa [hn] using hrest0 nm hnm
      obtain ⟨db', cnt', heq, hpres, hone, hnewp, hevol⟩ :=
        ih ⟨db.cats ++ [⟨some db.nextPk, name, "", none, true, false, none⟩],
          db.nextPk + 1⟩ (cnt + 1) hrest1
      have hstep : handleNames (name :: rest) db cnt
          = handleNames rest
              ⟨db.cats ++ [⟨some db.nextPk, name, "", none, true, false, none⟩],
                db.nextPk + 1⟩ (cnt + 1) := by
        rw [handleNames, get_or_create_not_found name db hf]
        rfl
      have hnewmem : (⟨some db.nextPk, name, "", none, true, false, none⟩ : Category)
          ∈ db'.cats :=
        hpres _ (List.mem_append_right _ (List.mem_singleton.mpr rfl))
      have h1 : countName
          (db.cats ++ [⟨some db.nextPk, name, "", none, true, false, none⟩]) name = 1 := by
        rw [countName_append, hsingle name, h0]
        simp
      refine ⟨db', cnt', by rw [hstep]; exact heq, ?_, ?_, ?_, ?_⟩
      · exact fun c hc => hpres c (List.mem_append_left _ hc)
      · intro nm hnm
        rcases List.mem_cons.mp hnm with hnm | hnm
        · subst hnm
          rcases hevol nm with he | he
          · rw [he]
            exact h1
          · exact he.2
        · exact hone nm hnm
      · intro nm hnm habs
        rcases List.mem_cons.mp hnm with hnm | hnm
        · exact ⟨_, hnewmem, hnm.symm, rfl, rfl⟩
        · by_cases hnn : nm = name
          · exact ⟨_, hnewmem, hnn.symm, rfl, rfl⟩
          · refine hnewp nm hnm ?_
            intro c hc
            rcases List.mem_append.mp hc with hc | hc
            · exact habs c hc
            · have hcl : c = ⟨some db.nextPk, name, "", none, true, false, none⟩ :=
                List.mem_singleton.mp hc
              rw [hcl]
              show name ≠ nm
              exact fun hcontra => hnn hcontra.symm
      · intro s
        have hd1 : countName
            (db.cats ++ [⟨some db.nextPk, name, "", none, true, false, none⟩]) s
              = countName db.cats s + (if name = s then 1 else 0) := by
          rw [countName_append, hsingle s]
        by_cases hs : name = s
        · subst hs
          rcases hevol name with he | he
          · right
            refine ⟨h0, ?_⟩
            rw [he, h1]
          · right
            exact ⟨h0, he.2⟩
        · have hds : countName
              (db.cats ++ [⟨some db.nextPk, name, "", none, true, false, none⟩]) s
                = countName db.cats s := by
            rw [hd1]
            simp [hs]
          rcases hevol s with he | he
          · left
            rw [he, hds]
          · right
            rw [← hds]
            exact he

/-- When every name already has exactly one bearer, `handleNames` changes
nothing and creates nothing. -/
theorem handleNames_all_found (names : List String) :
    ∀ (db : CatDB) (cnt : Nat),
    (∀ name ∈ names, countName db.cats name = 1) →
    handleNames names db cnt = Except.ok (db, cnt) := by
  induction names with
  | nil => intro db cnt _; rfl
  | cons name rest ih =>
    intro db cnt h
    have h1 : (db.cats.filter (fun x => x.name == name)).length = 1 :=
      h name (List.mem_cons_self name rest)
    obtain ⟨c, hf⟩ := List.length_eq_one.mp h1
    rw [handleNames, get_or_create_found name db c hf]
    exact ih db cnt (fun nm hnm => h nm (List.mem_cons_of_mem _ hnm))

/-- C9 (amended): over any starting table in which each seeded name has at
most one bearer, the seeding run succeeds; pre-existing rows are
untouched, every seeded name has a bearer afterwards, names with no
pre-existing bearer are created as non-custom unowned categories, and a
second run changes nothing and creates nothing (idempotence). A
pre-existing category already bearing a seeded name — even a custom,
owned one — is kept as is, so that bearer need not be non-custom or
unowned; and on a table where two rows bear one seeded name, the lookup
raises `MultipleObjectsReturned` instead of seeding. -/
theorem claim_C9_seeding_idempotent (names : List String) (db : CatDB)
    (h : ∀ name ∈ names, countName db.cats name ≤ 1) :
    ∃ db' cnt, handleNames names db 0 = Except.ok (db', cnt) ∧
      (∀ c ∈ db.cats, c ∈ db'.cats) ∧
      (∀ name ∈ names, ∃ c ∈ db'.cats, c.name = name) ∧
      (∀ name ∈ names, (∀ c ∈ db.cats, c.name ≠ name) →
        ∃ c ∈ db'.cats, c.name = name ∧ c.is_custom = false ∧ c.user = none) ∧
      handleNames names db' 0 = Except.ok (db', 0) := by
  obtain ⟨db', cnt, heq, hpres, hone, hnew, _⟩ := handleNames_spec names db 0 h
  refine ⟨db', cnt, heq, hpres, ?_, hnew, handleNames_all_found names db' 0 hone⟩
  intro name hnm
  have h1 : (db'.cats.filter (fun x => x.name == name)).length = 1 := hone name hnm
  obtain ⟨c, hf⟩ := List.length_eq_one.mp h1
  have hcfil : c ∈ db'.cats.filter (fun x => x.name == name) := by
    rw [hf]
    exact List.mem_singleton.mpr rfl
  exact ⟨c, (List.mem_filter.mp hcfil).1, by simpa using (List.mem_filter.mp hcfil).2⟩

/-- Witness for C9: seeding the single name "Pets" on an empty table
creates a non-custom, unowned "Pets" category. -/
theorem claim_C9_seeding_idempotent_witness :
    ∃ db' cnt, handleNames ["Pets"] catDbEmpty 0 = Except.ok (db', cnt) ∧
      ∃ c ∈ db'.cats, c.name = "Pets" ∧ c.is_custom = false ∧ c.user = none := by
  obtain ⟨db', cnt, heq, _, _, hnew, _⟩ :=
    claim_C9_seeding_idempotent ["Pets"] catDbEmpty (by decide)
  exact ⟨db', cnt, heq,
    hnew "Pets" (List.mem_singleton.mpr rfl) (by simp [catDbEmpty])⟩

/-- Counterexample for C9 as stated: when a custom category owned by user
7 already bears the name "Transport", running the seeding command leaves
no non-custom, unowned "Transport" behind — the claim's "each named
category exists afterwards as a non-custom, unowned category" fails. -/
theorem claim_C9_counterexample :
    (match Command.handle catDb0 with
      | Except.ok r =>
          r.1.cats.any (fun c => c.name == "Transport" && !c.is_custom && c.user == none)
      | Except.error _ => true) = false := by
  decide
